import Mathlib

/-!
Shallow embedding of the aggregation logic of the AWS billing dashboard
server (Express handlers for `/api/costs` and `/api/credits`, the in-memory
response cache, the query builders, and the record-type summary classifier).

JavaScript numbers are modelled as `Option ℚ`: `some q` is the exact value q
and `none` is `NaN`.  All amounts occurring in the handlers are produced by
`Number(...)` or `parseFloat(...)` on decimal strings and combined with `+`
and `Math.abs`, so exact rationals with an absorbing `NaN` element capture the
arithmetic (floating-point rounding is outside the scope of the claims, which
speak of exact arithmetic).  String-to-number coercion is modelled for
decimal literals (optional sign, digits, optional fractional part); exotic
numeric syntaxes (hex, exponents, `Infinity`, surrounding whitespace) do not
occur in the billing payloads and are not modelled: a string outside the
modelled grammar coerces to `NaN`, as `Number`/`parseFloat` do for
non-numeric input.

JavaScript `Map` objects are modelled as association lists in insertion
order: `mapSet` overwrites the first matching key in place or appends,
`mapGet` returns the first match, `mapDelete` removes the first match.
-/

namespace AwsBillDash

/-- Rational addition, written with `mkRat` so that the kernel can evaluate
it on closed terms; `ratAdd_eq` identifies it with `+`. -/
def ratAdd (a b : ℚ) : ℚ := mkRat (a.num * b.den + b.num * a.den) (a.den * b.den)

/-- Rational negation via `mkRat`; `ratNeg_eq` identifies it with `-`. -/
def ratNeg (q : ℚ) : ℚ := mkRat (-q.num) q.den

/-- Rational absolute value via `mkRat`; `ratAbs_eq` identifies it with `|·|`. -/
def ratAbs (q : ℚ) : ℚ := mkRat q.num.natAbs q.den

/-- Boolean rational comparison; `ratLeB_iff` identifies it with `≤`. -/
def ratLeB (a b : ℚ) : Bool := decide (a.num * b.den ≤ b.num * a.den)

/-- A JavaScript number: `none` models `NaN`, `some q` an exact value. -/
abbrev JSNum := Option ℚ

/-- JavaScript `+` on numbers: `NaN` is absorbing. -/
def jsAdd : JSNum → JSNum → JSNum
  | some a, some b => some (ratAdd a b)
  | _, _ => none

/-- JavaScript `Math.abs`: `NaN` maps to `NaN`. -/
def jsAbs : JSNum → JSNum :=
  Option.map ratAbs

/-- Numeric value of a digit character. -/
def digToNat (c : Char) : Nat := c.toNat - 48

/-- Value of a digit string, most significant first. -/
def digitsVal (cs : List Char) : Nat :=
  cs.foldl (fun a c => 10 * a + digToNat c) 0

/-- Parse an unsigned decimal literal (`digits`, `digits.digits`, `.digits`,
`digits.`) from the front of a character list, returning its value and the
unconsumed remainder, or `none` if no digits are present. -/
def parseUnsigned (cs : List Char) : Option (ℚ × List Char) :=
  let p := cs.span Char.isDigit
  match p.2 with
  | '.' :: r2 =>
    let f := r2.span Char.isDigit
    if p.1.isEmpty && f.1.isEmpty then none
    else
      -- value: intPart + fracPart / 10 ^ fracLen, as a single fraction
      some (mkRat (digitsVal p.1 * 10 ^ f.1.length + digitsVal f.1) (10 ^ f.1.length), f.2)
  | r1 => if p.1.isEmpty then none else some (mkRat (digitsVal p.1) 1, r1)

/-- Parse an optionally signed decimal literal from the front of a character
list. -/
def parseSigned (cs : List Char) : Option (ℚ × List Char) :=
  match cs with
  | '-' :: r => (parseUnsigned r).map (fun p => (ratNeg p.1, p.2))
  | '+' :: r => parseUnsigned r
  | _ => parseUnsigned cs

/-- JavaScript `parseFloat`: value of the longest numeric leading portion of
the string, `NaN` (`none`) when the string has no numeric leading portion. -/
def jsParseFloat (s : String) : JSNum :=
  (parseSigned s.data).map Prod.fst

/-- JavaScript `Number(...)` coercion of a string: the empty string coerces
to `0`; otherwise the whole string must be a decimal literal, else `NaN`. -/
def jsNumber (s : String) : JSNum :=
  if s.data.isEmpty then some 0
  else
    match parseSigned s.data with
    | some (q, []) => some q
    | _ => none

/-- JavaScript `Map.prototype.get` on a string-keyed map in insertion order
(also models property lookup `obj[key]` on a plain object). -/
def mapGet {β : Type} : List (String × β) → String → Option β
  | [], _ => none
  | (k', v) :: rest, k => if k' = k then some v else mapGet rest k

/-- JavaScript `Map.prototype.set`: overwrite the first matching key in
place, or append a new entry. -/
def mapSet {β : Type} : List (String × β) → String → β → List (String × β)
  | [], k, v => [(k, v)]
  | (k', v') :: rest, k, v =>
    if k' = k then (k, v) :: rest else (k', v') :: mapSet rest k v

/-- JavaScript `Map.prototype.delete`: remove the first matching entry. -/
def mapDelete {β : Type} : List (String × β) → String → List (String × β)
  | [], _ => []
  | (k', v') :: rest, k => if k' = k then rest else (k', v') :: mapDelete rest k

/-- The keys of a JavaScript `Map` are pairwise distinct; association lists
with distinct keys are the well-formed cache states. -/
def NodupKeys {β : Type} (l : List (String × β)) : Prop :=
  (l.map Prod.fst).Nodup

/-- Source: `const CACHE_TTL_MS = 60_000`. -/
def CACHE_TTL_MS : Int := 60000

/-- A cache slot: `key -> { expiresAt, value }`. -/
structure CacheEntry (α : Type) where
  expiresAt : Int
  value : α
deriving DecidableEq

/-- The in-memory cache `const cache = new Map()`. -/
abbrev Cache (α : Type) := List (String × CacheEntry α)

/-- Function `cacheGet`: look the key up; report a miss on absence; on an expired hit
(`Date.now() > hit.expiresAt`) delete the entry and report a miss; otherwise
return the stored value.  The mutated map is returned alongside. -/
def cacheGet {α : Type} (c : Cache α) (key : String) (now : Int) :
    Option α × Cache α :=
  match mapGet c key with
  | none => (none, c)
  | some hit =>
    if now > hit.expiresAt then (none, mapDelete c key)
    else (some hit.value, c)

/-- Function `cacheSet`: store the value with `expiresAt = Date.now() + CACHE_TTL_MS`. -/
def cacheSet {α : Type} (c : Cache α) (key : String) (value : α) (now : Int) :
    Cache α :=
  mapSet c key ⟨now + CACHE_TTL_MS, value⟩

/-! ## Raw upstream response shape (Cost Explorer `GetCostAndUsage` output)

Optional fields of the raw JSON are `Option`s; the handlers access them with
optional chaining (`?.`), modelled by `Option.bind`. -/

/-- A raw metric value `{ Amount, Unit }`, both fields optional strings. -/
structure RawMetric where
  Amount : Option String
  Unit : Option String
deriving DecidableEq

/-- A raw `Metrics` object: metric name to `{ Amount, Unit }`. -/
abbrev RawMetrics := List (String × RawMetric)

/-- A raw group `{ Keys, Metrics }` inside a time period. -/
structure RawGroup where
  Keys : Option (List String)
  Metrics : Option RawMetrics
deriving DecidableEq

/-- A raw `TimePeriod` object. -/
structure RawTimePeriod where
  Start : Option String
  End : Option String
deriving DecidableEq

/-- A raw per-period record of `ResultsByTime`. -/
structure RawPeriod where
  TimePeriod : Option RawTimePeriod
  Total : Option RawMetrics
  Groups : Option (List RawGroup)
deriving DecidableEq

/-- A raw `GetCostAndUsage` response. -/
structure RawResponse where
  ResultsByTime : Option (List RawPeriod)
deriving DecidableEq

/-! ## Result normalizer (`GET /api/costs`, lines 128-160) -/

/-- A normalized metric `{ amount, unit }`. -/
structure Metric where
  amount : JSNum
  unit : String
deriving DecidableEq

/-- Function `getMetric`: `{ amount: Number(obj?.Amount ?? 0), unit: obj?.Unit ?? "USD" }`
where `obj = m?.[key]`. -/
def getMetric (m : Option RawMetrics) (key : String) : Metric :=
  let obj := m.bind (fun mm => mapGet mm key)
  { amount :=
      match obj with
      | none => some 0            -- Number(undefined ?? 0) = 0
      | some o =>
        match o.Amount with
        | none => some 0          -- Number(undefined ?? 0) = 0
        | some s => jsNumber s    -- Number(raw string amount)
  , unit := (obj.bind RawMetric.Unit).getD "USD" }

/-- The six normalized metrics exposed at total and group level. -/
structure MetricSet where
  unblended : Metric
  amortized : Metric
  blended : Metric
  usage : Metric
  netUnblended : Metric
  netAmortized : Metric
deriving DecidableEq

/-- Extraction of the six named metrics from a raw `Metrics` object. -/
def toMetricSet (m : Option RawMetrics) : MetricSet :=
  { unblended := getMetric m "UnblendedCost"
  , amortized := getMetric m "AmortizedCost"
  , blended := getMetric m "BlendedCost"
  , usage := getMetric m "UsageQuantity"
  , netUnblended := getMetric m "NetUnblendedCost"
  , netAmortized := getMetric m "NetAmortizedCost" }

/-- A normalized group `{ keys, metrics }`. -/
structure NormGroup where
  keys : List String
  metrics : MetricSet
deriving DecidableEq

/-- A normalized per-period result. -/
structure PeriodResult where
  start : Option String
  end_ : Option String
  total : MetricSet
  groups : List NormGroup
deriving DecidableEq

/-- Normalization of one raw period record. -/
def normPeriod (r : RawPeriod) : PeriodResult :=
  { start := r.TimePeriod.bind RawTimePeriod.Start
  , end_ := r.TimePeriod.bind RawTimePeriod.End
  , total := toMetricSet r.Total
  , groups := (r.Groups.getD []).map
      (fun g => { keys := g.Keys.getD [], metrics := toMetricSet g.Metrics }) }

/-- Source: `const results = (out.ResultsByTime ?? []).map(...)`. -/
def normalizeResults (o : Option (List RawPeriod)) : List PeriodResult :=
  (o.getD []).map normPeriod

/-! ## Summary classifier (`GET /api/costs`, lines 162-185) -/

/-- Expression `g.Keys?.[0]`: the record type of a summary group. -/
def recordType (g : RawGroup) : Option String :=
  g.Keys.bind List.head?

/-- Expression `g.Metrics?.UnblendedCost?.Amount`. -/
def rawUnblendedAmount (g : RawGroup) : Option String :=
  (g.Metrics.bind (fun mm => mapGet mm "UnblendedCost")).bind RawMetric.Amount

/-- JavaScript `x || "0"` on an optional string: `undefined` and the empty
string are falsy and give `"0"`. -/
def orZeroStr : Option String → String
  | none => "0"
  | some s => if s = "" then "0" else s

/-- Expression `parseFloat(g.Metrics?.UnblendedCost?.Amount || "0")`. -/
def summaryAmount (g : RawGroup) : JSNum :=
  jsParseFloat (orZeroStr (rawUnblendedAmount g))

/-- The summary accumulator `{ usage, credit, tax, refund, other, total }`. -/
structure Summary where
  usage : JSNum
  credit : JSNum
  tax : JSNum
  refund : JSNum
  other : JSNum
  total : JSNum
deriving DecidableEq

/-- The initial summary, all buckets `0`. -/
def initSummary : Summary :=
  ⟨some 0, some 0, some 0, some 0, some 0, some 0⟩

/-- Processing of one summary group: add its amount to `total`, then to the
bucket selected by an exact string match on the record type. -/
def classifyGroup (s : Summary) (g : RawGroup) : Summary :=
  let type := recordType g
  let amount := summaryAmount g
  let s1 := { s with total := jsAdd s.total amount }
  if type = some "Credit" then { s1 with credit := jsAdd s1.credit amount }
  else if type = some "Tax" then { s1 with tax := jsAdd s1.tax amount }
  else if type = some "Refund" then { s1 with refund := jsAdd s1.refund amount }
  else if type = some "Usage" then { s1 with usage := jsAdd s1.usage amount }
  else { s1 with other := jsAdd s1.other amount }

/-- The nested `forEach` over `summaryOut.ResultsByTime ?? []` and each
period's `Groups ?? []`. -/
def processSummary (periods : List RawPeriod) : Summary :=
  periods.foldl (fun s r => (r.Groups.getD []).foldl classifyGroup s) initSummary

/-! ## Query validation result and query builders (`GET /api/costs`) -/

/-- The `granularity` enum, zod-validated, default `DAILY`. -/
inductive Granularity
  | DAILY
  | MONTHLY
deriving DecidableEq

/-- The `groupBy` enum, zod-validated, default `SERVICE`. -/
inductive GroupByOpt
  | SERVICE
  | NONE
deriving DecidableEq

/-- The string carried by the validated `granularity` parameter. -/
def granStr : Granularity → String
  | .DAILY => "DAILY"
  | .MONTHLY => "MONTHLY"

/-- The string carried by the validated `groupBy` parameter. -/
def gbStr : GroupByOpt → String
  | .SERVICE => "SERVICE"
  | .NONE => "NONE"

/-- A validated `/api/costs` query (after zod parsing). -/
structure CostsQuery where
  start? : Option String
  end? : Option String
  granularity : Granularity
  groupBy : GroupByOpt
deriving DecidableEq

/-- A `GroupBy` element `{ Type, Key }`. -/
structure GroupDef where
  Type_ : String
  Key : String
deriving DecidableEq

/-- A `Dimensions` filter `{ Key, Values }`. -/
structure DimFilter where
  Key : String
  Values : List String
deriving DecidableEq

/-- A Cost Explorer filter expression: plain or negated dimension filter. -/
inductive FilterExpr
  | dims (d : DimFilter)
  | notDims (d : DimFilter)
deriving DecidableEq

/-- The request descriptor passed to `GetCostAndUsageCommand`. -/
structure CostCmd where
  TimePeriodStart : String
  TimePeriodEnd : String
  Granularity : String
  Metrics : List String
  GroupBy : Option (List GroupDef)
  Filter : Option FilterExpr
deriving DecidableEq

/-- The detail request `cmd` (lines 78-108): requested range and
granularity, six metrics, grouped by service iff `groupBy=SERVICE`,
record types Credit and Refund excluded. -/
def buildDetailCmd (start end_ : String) (q : CostsQuery) : CostCmd :=
  { TimePeriodStart := start
  , TimePeriodEnd := end_
  , Granularity := granStr q.granularity
  , Metrics :=
      [ "UnblendedCost", "AmortizedCost", "BlendedCost"
      , "UsageQuantity", "NetUnblendedCost", "NetAmortizedCost" ]
  , GroupBy :=
      if q.groupBy = GroupByOpt.SERVICE then some [⟨"DIMENSION", "SERVICE"⟩]
      else none
  , Filter := some (.notDims ⟨"RECORD_TYPE", ["Credit", "Refund"]⟩) }

/-- The record-type summary request `summaryCmd` (lines 111-116): same
range, forced MONTHLY granularity, single unblended-cost metric, grouped by
record type, no filter. -/
def buildSummaryCmd (start end_ : String) : CostCmd :=
  { TimePeriodStart := start
  , TimePeriodEnd := end_
  , Granularity := "MONTHLY"
  , Metrics := ["UnblendedCost"]
  , GroupBy := some [⟨"DIMENSION", "RECORD_TYPE"⟩]
  , Filter := none }

/-! ## Dates: `isoDate(d) = d.toISOString().slice(0, 10)`

A timestamp is an integer count of milliseconds since the Unix epoch
(`Date.now()` / `Date.prototype.getTime`).  `toISOString` renders the UTC
calendar date; the proleptic-Gregorian conversion below (days-from-epoch to
civil year/month/day) is the standard algorithm ECMAScript engines
implement.  `slice(0, 10)` keeps `YYYY-MM-DD`; the model covers years
0-9999, where `toISOString` uses the plain 4-digit year form. -/

/-- Milliseconds per civil day. -/
def msPerDay : Int := 86400000

/-- Civil (proleptic Gregorian) date from a count of days since 1970-01-01:
`(year, month, day)`. -/
def civilFromDays (z0 : Int) : Int × Int × Int :=
  let z := z0 + 719468
  let era := z / 146097
  let doe := z - era * 146097
  let yoe := (doe - doe / 1460 + doe / 36524 - doe / 146096) / 365
  let y := yoe + era * 400
  let doy := doe - (365 * yoe + yoe / 4 - yoe / 100)
  let mp := (5 * doy + 2) / 153
  let d := doy - (153 * mp + 2) / 5 + 1
  let m := mp + (if mp < 10 then 3 else -9)
  (y + (if m ≤ 2 then 1 else 0), m, d)

/-- Two-digit zero-padded decimal rendering (months, days). -/
def pad2 (n : Nat) : List Char :=
  [Nat.digitChar (n / 10 % 10), Nat.digitChar (n % 10)]

/-- Four-digit zero-padded decimal rendering (years 0-9999). -/
def pad4 (n : Nat) : List Char :=
  [ Nat.digitChar (n / 1000 % 10), Nat.digitChar (n / 100 % 10)
  , Nat.digitChar (n / 10 % 10), Nat.digitChar (n % 10) ]

/-- Function `isoDate`: the UTC calendar date of a timestamp as `YYYY-MM-DD`. -/
def isoDate (t : Int) : String :=
  let c := civilFromDays (t / msPerDay)
  ⟨pad4 c.1.toNat ++ '-' :: pad2 c.2.1.toNat ++ '-' :: pad2 c.2.2.toNat⟩

/-- Check that a string has the shape `YYYY-MM-DD` (four digits, dash, two
digits, dash, two digits). -/
def isoFormatted (s : String) : Bool :=
  match s.data with
  | [y1, y2, y3, y4, h1, m1, m2, h2, d1, d2] =>
    y1.isDigit && y2.isDigit && y3.isDigit && y4.isDigit && h1 == '-' &&
    m1.isDigit && m2.isDigit && h2 == '-' && d1.isDigit && d2.isDigit
  | _ => false

/-- Source: `const end = q.end ?? isoDate(now)`. -/
def resolvedEnd (q : CostsQuery) (now : Int) : String :=
  q.end?.getD (isoDate now)

/-- Source: `const start = q.start ?? isoDate(new Date(now.getTime() - 30*24*60*60*1000))`. -/
def resolvedStart (q : CostsQuery) (now : Int) : String :=
  q.start?.getD (isoDate (now - 30 * 24 * 60 * 60 * 1000))

/-- Function `cacheKey`: `JSON.stringify` of the four query dimensions.
The four fields are serialized in insertion order; the date and enum strings
contain no characters needing JSON escapes. -/
def cacheKey (start end_ : String) (g : Granularity) (gb : GroupByOpt) : String :=
  "\x7b\"start\":\"" ++ start ++ "\",\"end\":\"" ++ end_ ++
    "\",\"granularity\":\"" ++ granStr g ++ "\",\"groupBy\":\"" ++ gbStr gb ++ "\"\x7d"

/-! ## Error shape and the two HTTP handlers -/

/-- A caught upstream error: `err?.name` and `err?.message`. -/
structure JsError where
  name : Option String
  message : Option String
deriving DecidableEq

/-- Error formatting (line 200): an empty or absent `err.name` is
falsy and yields `"Unknown error"`; otherwise `name: message` with an absent
message coalesced to the empty string. -/
def errMsg (e : JsError) : String :=
  match e.name with
  | none => "Unknown error"
  | some n => if n = "" then "Unknown error" else n ++ ": " ++ e.message.getD ""

/-- Semantics of `Promise.all` over the two upstream calls: the join succeeds only when
both succeed, and fails with a rejection's error otherwise. -/
def joinAll2 {α β : Type} :
    Except JsError α → Except JsError β → Except JsError (α × β)
  | .error e, _ => .error e
  | _, .error e => .error e
  | .ok a, .ok b => .ok (a, b)

/-- The payload of a successful `/api/costs` response (the cached unit). -/
structure CostsPayload where
  start : String
  end_ : String
  granularity : Granularity
  groupBy : GroupByOpt
  results : List PeriodResult
  summary : Summary
deriving DecidableEq

/-- The JSON body of a `/api/costs` response. -/
inductive CostsHttpBody
  | payload (p : CostsPayload)
  | failure (error : String) (message : String)
deriving DecidableEq

/-- An HTTP response: status code and JSON body. -/
structure HttpResponse (β : Type) where
  status : Nat
  body : β
deriving DecidableEq

/-- The `GET /api/costs` handler after validation, with the clock and the
two upstream outcomes as parameters: resolve the dates, consult the cache
(possibly evicting an expired entry), join the two concurrent upstream
calls, and either fail with 500 or normalize, classify, cache and answer
200.  Returns the response and the cache state after the request. -/
def runCosts (now : Int) (cache : Cache CostsPayload) (q : CostsQuery)
    (detailRes summaryRes : Except JsError RawResponse) :
    HttpResponse CostsHttpBody × Cache CostsPayload :=
  let start := resolvedStart q now
  let end_ := resolvedEnd q now
  let key := cacheKey start end_ q.granularity q.groupBy
  let got := cacheGet cache key now
  match got.1 with
  | some v => (⟨200, .payload v⟩, got.2)
  | none =>
    match joinAll2 detailRes summaryRes with
    | .error err =>
      (⟨500, .failure "Failed to fetch costs from AWS Cost Explorer" (errMsg err)⟩,
        got.2)
    | .ok (out, summaryOut) =>
      let payload : CostsPayload :=
        { start := start
        , end_ := end_
        , granularity := q.granularity
        , groupBy := q.groupBy
        , results := normalizeResults out.ResultsByTime
        , summary := processSummary (summaryOut.ResultsByTime.getD []) }
      (⟨200, .payload payload⟩, cacheSet got.2 key payload now)

/-! ## Credits aggregator (`GET /api/credits`, lines 208-252) -/

/-- Expression `g.Keys?.[0] || "Unknown"`: an absent or empty first key is falsy. -/
def serviceName (g : RawGroup) : String :=
  match g.Keys.bind List.head? with
  | none => "Unknown"
  | some s => if s = "" then "Unknown" else s

/-- Expression `parseFloat(g.Metrics?.UnblendedCost?.Amount || "0")` on the credits
path. -/
def creditAmount (g : RawGroup) : JSNum :=
  jsParseFloat (orZeroStr (rawUnblendedAmount g))

/-- JavaScript `x || 0` on an optional stored number: `undefined`, `NaN`
(and `0` itself) are falsy and give `0`. -/
def orZeroNum : Option JSNum → JSNum
  | none => some 0
  | some none => some 0
  | some (some q) => some q

/-- One step of the credits accumulation: add the amount to the running
total and to the per-service map entry (`serviceMap.get(service) || 0`). -/
def creditsStep (acc : JSNum × List (String × JSNum)) (g : RawGroup) :
    JSNum × List (String × JSNum) :=
  let svc := serviceName g
  let amt := creditAmount g
  (jsAdd acc.1 amt, mapSet acc.2 svc (jsAdd (orZeroNum (mapGet acc.2 svc)) amt))

/-- The nested `forEach` of the credits handler: running total and
insertion-ordered service map. -/
def creditsFold (periods : List RawPeriod) : JSNum × List (String × JSNum) :=
  periods.foldl (fun acc r => (r.Groups.getD []).foldl creditsStep acc) (some 0, [])

/-- An entry of `by_service`. -/
structure SvcEntry where
  service : String
  amount : JSNum
deriving DecidableEq

/-- The comparator `(a, b) => b.amount - a.amount` viewed as the relation
"a stays before b": true when `a.amount ≥ b.amount`, and true when either
amount is `NaN` (the comparator result `NaN` is treated as zero). -/
def geAmtB (x y : SvcEntry) : Bool :=
  match x.amount, y.amount with
  | some a, some b => ratLeB b a
  | _, _ => true

/-- Stable insertion of an element into a sorted-descending list. -/
def sortInsert (x : SvcEntry) : List SvcEntry → List SvcEntry
  | [] => [x]
  | y :: ys => if geAmtB x y then x :: y :: ys else y :: sortInsert x ys

/-- Model of `Array.prototype.sort` with the descending-by-amount comparator,
modelled as a stable insertion sort. -/
def sortByAmountDesc (l : List SvcEntry) : List SvcEntry :=
  l.foldr sortInsert []

/-- The `/api/credits` payload `{ total_used, by_service }`. -/
structure CreditsPayload where
  total_used : JSNum
  by_service : List SvcEntry
deriving DecidableEq

/-- Lines 228-246: accumulate, take absolute values, sort descending. -/
def creditsAggregate (periods : List RawPeriod) : CreditsPayload :=
  let t := creditsFold periods
  { total_used := jsAbs t.1
  , by_service :=
      sortByAmountDesc (t.2.map (fun p => { service := p.1, amount := jsAbs p.2 })) }

/-- The zero-valued fallback payload of the credits `catch` arm. -/
def zeroCredits : CreditsPayload :=
  { total_used := some 0, by_service := [] }

/-- The `GET /api/credits` handler with the upstream outcome as parameter:
success aggregates; any failure degrades to the zero payload with status
200 (`res.json` never sets an error status on this path). -/
def runCredits (r : Except JsError RawResponse) : HttpResponse CreditsPayload :=
  match r with
  | .ok out => ⟨200, creditsAggregate (out.ResultsByTime.getD [])⟩
  | .error _ => ⟨200, zeroCredits⟩

/-! ## Derived specification-side definitions -/

/-- All groups of a response, in order, flattening the nested iteration. -/
def allGroups (periods : List RawPeriod) : List RawGroup :=
  periods.flatMap (fun r => r.Groups.getD [])

/-- Every group amount of the response parses as a number (no `NaN`). -/
def AllNumeric (periods : List RawPeriod) : Prop :=
  ∀ g ∈ allGroups periods, (creditAmount g).isSome

/-- The exact sum of the parsed amounts of all groups. -/
def grandTotal (gs : List RawGroup) : ℚ :=
  (gs.map (fun g => (creditAmount g).getD 0)).sum

/-- The exact sum of the parsed amounts of the groups of one service. -/
def svcTotal (s : String) (gs : List RawGroup) : ℚ :=
  ((gs.filter (fun g => serviceName g = s)).map (fun g => (creditAmount g).getD 0)).sum

/-- Entry `x` may precede entry `y` in a descending-by-amount list: its
amount is at least `y`'s (`NaN` amounts compare as equal). -/
def entryGe (x y : SvcEntry) : Prop :=
  geAmtB x y = true

/-! ## Concrete fixtures used by the claims -/

/-- Summary group `{keys: ["Credit"], amount "12.50"}`. -/
def exCreditGroup : RawGroup :=
  ⟨some ["Credit"], some [("UnblendedCost", ⟨some "12.50", some "USD"⟩)]⟩

/-- Summary group `{keys: ["Usage"], amount "40.00"}`. -/
def exUsageGroup : RawGroup :=
  ⟨some ["Usage"], some [("UnblendedCost", ⟨some "40.00", some "USD"⟩)]⟩

/-- A one-period record-type summary holding the two groups above. -/
def exSummaryPeriod : RawPeriod :=
  ⟨none, none, some [exCreditGroup, exUsageGroup]⟩

/-- A raw `Metrics` object with a non-numeric `UnblendedCost.Amount`. -/
def exBadMetrics : RawMetrics :=
  [("UnblendedCost", ⟨some "abc", none⟩)]

/-- A summary group whose amount string is non-numeric. -/
def exBadGroup : RawGroup :=
  ⟨some ["Usage"], some exBadMetrics⟩

/-- A raw `Metrics` object that lacks the `UsageQuantity` field. -/
def exNoUsageMetrics : RawMetrics :=
  [("UnblendedCost", ⟨some "1.25", some "USD"⟩)]

/-- Credits group `{service: "EC2", amount: "-5.00"}`. -/
def exEc2a : RawGroup :=
  ⟨some ["EC2"], some [("UnblendedCost", ⟨some "-5.00", none⟩)]⟩

/-- Credits group `{service: "EC2", amount: "-3.00"}`. -/
def exEc2b : RawGroup :=
  ⟨some ["EC2"], some [("UnblendedCost", ⟨some "-3.00", none⟩)]⟩

/-- A one-period credits response with the two EC2 groups. -/
def exCreditsPeriod : RawPeriod :=
  ⟨none, none, some [exEc2a, exEc2b]⟩

/-- A credits response whose middle group has a non-numeric amount: services
A, B, C with amounts `1`, `NaN`, `5`. -/
def exNaNCreditsPeriod : RawPeriod :=
  ⟨none, none, some
    [ ⟨some ["A"], some [("UnblendedCost", ⟨some "1", none⟩)]⟩
    , ⟨some ["B"], some [("UnblendedCost", ⟨some "x", none⟩)]⟩
    , ⟨some ["C"], some [("UnblendedCost", ⟨some "5", none⟩)]⟩ ]⟩

/-- A concrete validated costs query with explicit dates. -/
def exQuery : CostsQuery :=
  ⟨some "2024-01-01", some "2024-01-03", .DAILY, .SERVICE⟩

/-- A minimal concrete cached payload. -/
def exPayload : CostsPayload :=
  ⟨"2024-01-01", "2024-01-03", .DAILY, .SERVICE, [], initSummary⟩

/-- A cache holding, under `exQuery`'s key, an entry that expires at time 5. -/
def exExpiredCache : Cache CostsPayload :=
  [(cacheKey "2024-01-01" "2024-01-03" .DAILY .SERVICE, ⟨5, exPayload⟩)]

/-- A concrete upstream error. -/
def exErr : JsError :=
  ⟨some "AccessDeniedException", some "not authorized"⟩

/-! ## Lemmas -/

theorem ratAdd_eq (a b : ℚ) : ratAdd a b = a + b := by
  have ha : ((a.den : ℚ)) ≠ 0 := by exact_mod_cast a.den_nz
  have hb : ((b.den : ℚ)) ≠ 0 := by exact_mod_cast b.den_nz
  unfold ratAdd
  rw [Rat.mkRat_eq_div]
  push_cast
  conv_rhs => rw [← Rat.num_div_den a, ← Rat.num_div_den b, div_add_div _ _ ha hb]
  ring_nf

theorem ratNeg_eq (q : ℚ) : ratNeg q = -q := by
  unfold ratNeg
  rw [Rat.mkRat_eq_div]
  push_cast [neg_div]
  rw [Rat.num_div_den]

theorem ratAbs_eq (q : ℚ) : ratAbs q = |q| := by
  unfold ratAbs
  rw [Rat.mkRat_eq_div]
  rcases le_or_lt 0 q with h | h
  · rw [abs_of_nonneg h, Int.natAbs_of_nonneg (Rat.num_nonneg.mpr h)]
    exact Rat.num_div_den q
  · rw [abs_of_neg h]
    rw [Int.ofNat_natAbs_of_nonpos (le_of_lt (Rat.num_neg.mpr h))]
    push_cast
    rw [neg_div, Rat.num_div_den]

theorem ratLeB_iff (a b : ℚ) : ratLeB a b = true ↔ a ≤ b := by
  unfold ratLeB
  rw [decide_eq_true_iff]
  exact (Rat.le_def).symm

theorem jsAdd_some (a b : ℚ) : jsAdd (some a) (some b) = some (a + b) := by
  simp [jsAdd, ratAdd_eq]

theorem jsAdd_comm (a b : JSNum) : jsAdd a b = jsAdd b a := by
  cases a <;> cases b <;> simp [jsAdd, ratAdd_eq, add_comm]

theorem jsAdd_assoc (a b c : JSNum) : jsAdd (jsAdd a b) c = jsAdd a (jsAdd b c) := by
  cases a <;> cases b <;> cases c <;> simp [jsAdd, ratAdd_eq, add_assoc]

theorem jsAdd_left_comm (a b c : JSNum) :
    jsAdd a (jsAdd b c) = jsAdd b (jsAdd a c) := by
  rw [← jsAdd_assoc, jsAdd_comm a b, jsAdd_assoc]

theorem mapGet_eq_none {β : Type} (m : List (String × β)) (k : String)
    (h : k ∉ m.map Prod.fst) : mapGet m k = none := by
  induction m with
  | nil => rfl
  | cons hd t ih =>
    obtain ⟨k', v'⟩ := hd
    simp only [List.map_cons, List.mem_cons] at h
    push_neg at h
    have hk : k' ≠ k := fun hq => h.1 hq.symm
    simp [mapGet, hk, ih h.2]

theorem mapGet_mapSet_self {β : Type} (m : List (String × β)) (k : String) (v : β) :
    mapGet (mapSet m k v) k = some v := by
  induction m with
  | nil => simp [mapGet, mapSet]
  | cons hd t ih =>
    obtain ⟨k', v'⟩ := hd
    by_cases hk : k' = k
    · simp [mapSet, hk, mapGet]
    · simp [mapSet, hk, mapGet, ih]

theorem mapGet_mapSet_other {β : Type} (m : List (String × β)) (k a : String) (v : β)
    (h : a ≠ k) : mapGet (mapSet m k v) a = mapGet m a := by
  have hk2 : k ≠ a := fun hq => h hq.symm
  induction m with
  | nil => simp [mapGet, mapSet, hk2]
  | cons hd t ih =>
    obtain ⟨k', v'⟩ := hd
    by_cases hk : k' = k
    · subst hk
      simp [mapSet, mapGet, hk2]
    · simp [mapSet, hk, mapGet, ih]

theorem mapGet_mapDelete_self {β : Type} (m : List (String × β)) (k : String)
    (h : NodupKeys m) : mapGet (mapDelete m k) k = none := by
  induction m with
  | nil => rfl
  | cons hd t ih =>
    obtain ⟨k', v'⟩ := hd
    simp only [NodupKeys, List.map_cons, List.nodup_cons] at h
    by_cases hk : k' = k
    · subst hk
      simpa [mapDelete] using mapGet_eq_none t k' h.1
    · simp [mapDelete, hk, mapGet, ih h.2]

theorem mem_keys_mapSet {β : Type} (m : List (String × β)) (k a : String) (v : β) :
    a ∈ (mapSet m k v).map Prod.fst ↔ a ∈ m.map Prod.fst ∨ a = k := by
  induction m with
  | nil => simp [mapSet]
  | cons hd t ih =>
    obtain ⟨k', v'⟩ := hd
    by_cases hk : k' = k
    · subst hk
      simp [mapSet]
      tauto
    · simp only [mapSet, if_neg hk, List.map_cons, List.mem_cons, ih]
      tauto

theorem nodupKeys_mapSet {β : Type} (m : List (String × β)) (k : String) (v : β)
    (h : NodupKeys m) : NodupKeys (mapSet m k v) := by
  induction m with
  | nil => simp [mapSet, NodupKeys]
  | cons hd t ih =>
    obtain ⟨k', v'⟩ := hd
    simp only [NodupKeys, List.map_cons, List.nodup_cons] at h
    by_cases hk : k' = k
    · subst hk
      simpa [NodupKeys, mapSet] using h
    · have := ih h.2
      simp only [NodupKeys, mapSet, if_neg hk, List.map_cons, List.nodup_cons]
      refine ⟨?_, this⟩
      rw [mem_keys_mapSet]
      push_neg
      exact ⟨h.1, hk⟩

theorem mapGet_of_mem {β : Type} (m : List (String × β)) (k : String) (v : β)
    (hnd : NodupKeys m) (h : (k, v) ∈ m) : mapGet m k = some v := by
  induction m with
  | nil => simp at h
  | cons hd t ih =>
    obtain ⟨k', v'⟩ := hd
    simp only [NodupKeys, List.map_cons, List.nodup_cons] at hnd
    rcases List.mem_cons.mp h with heq | hmem
    · obtain ⟨rfl, rfl⟩ := Prod.mk.injEq .. ▸ heq
      simp [mapGet]
    · have hk : k' ≠ k := by
        rintro rfl
        exact hnd.1 (List.mem_map.mpr ⟨(k', v), hmem, rfl⟩)
      simp [mapGet, hk, ih hnd.2 hmem]

theorem foldl_nested_groups {σ : Type} (f : σ → RawGroup → σ)
    (periods : List RawPeriod) (init : σ) :
    periods.foldl (fun s r => (r.Groups.getD []).foldl f s) init =
      (allGroups periods).foldl f init := by
  induction periods generalizing init with
  | nil => rfl
  | cons r t ih =>
    simp only [List.foldl_cons, allGroups, List.flatMap_cons, List.foldl_append]
    exact ih _

theorem classifyGroup_keeps_inv (s : Summary) (g : RawGroup)
    (h : s.total =
      jsAdd s.usage (jsAdd s.credit (jsAdd s.tax (jsAdd s.refund s.other)))) :
    (classifyGroup s g).total =
      jsAdd (classifyGroup s g).usage
        (jsAdd (classifyGroup s g).credit
          (jsAdd (classifyGroup s g).tax
            (jsAdd (classifyGroup s g).refund (classifyGroup s g).other))) := by
  unfold classifyGroup
  by_cases h1 : recordType g = some "Credit"
  · simp only [h1, if_pos trivial, reduceIte]
    simp only [h]
    simp [jsAdd_assoc, jsAdd_comm, jsAdd_left_comm]
  · by_cases h2 : recordType g = some "Tax"
    · simp only [h1, h2, reduceIte]
      simp only [h]
      simp [jsAdd_assoc, jsAdd_comm, jsAdd_left_comm]
    · by_cases h3 : recordType g = some "Refund"
      · simp only [h1, h2, h3, reduceIte]
        simp only [h]
        simp [jsAdd_assoc, jsAdd_comm, jsAdd_left_comm]
      · by_cases h4 : recordType g = some "Usage"
        · simp only [h1, h2, h3, h4, reduceIte]
          simp only [h]
          simp [jsAdd_assoc, jsAdd_comm, jsAdd_left_comm]
        · simp only [h1, h2, h3, h4, reduceIte]
          simp only [h]
          simp [jsAdd_assoc, jsAdd_comm, jsAdd_left_comm]

theorem foldl_classifyGroup_inv (gs : List RawGroup) (s : Summary)
    (h : s.total =
      jsAdd s.usage (jsAdd s.credit (jsAdd s.tax (jsAdd s.refund s.other)))) :
    (gs.foldl classifyGroup s).total =
      jsAdd (gs.foldl classifyGroup s).usage
        (jsAdd (gs.foldl classifyGroup s).credit
          (jsAdd (gs.foldl classifyGroup s).tax
            (jsAdd (gs.foldl classifyGroup s).refund
              (gs.foldl classifyGroup s).other))) := by
  induction gs generalizing s with
  | nil => simpa using h
  | cons g t ih => exact ih _ (classifyGroup_keeps_inv s g h)

/-! ## Claims -/

/-- Claim C1: for every record-type summary response, the classifier adds
each group's parsed unblended amount to the grand total and to exactly one
of credit, tax, refund, usage when the group's first key is exactly
"Credit", "Tax", "Refund" or "Usage" respectively, and to other when it
matches none of those four; the two-group example (`Credit` 12.50, `Usage`
40.00) yields usage 40, credit 12.5, tax 0, refund 0, other 0, total 52.5. -/
theorem claim1_summary_classifier :
    (∀ (s : Summary) (g : RawGroup),
      (classifyGroup s g).total = jsAdd s.total (summaryAmount g) ∧
      (classifyGroup s g).credit =
        (if recordType g = some "Credit" then jsAdd s.credit (summaryAmount g)
         else s.credit) ∧
      (classifyGroup s g).tax =
        (if recordType g = some "Tax" then jsAdd s.tax (summaryAmount g)
         else s.tax) ∧
      (classifyGroup s g).refund =
        (if recordType g = some "Refund" then jsAdd s.refund (summaryAmount g)
         else s.refund) ∧
      (classifyGroup s g).usage =
        (if recordType g = some "Usage" then jsAdd s.usage (summaryAmount g)
         else s.usage) ∧
      (classifyGroup s g).other =
        (if recordType g = some "Credit" ∨ recordType g = some "Tax" ∨
            recordType g = some "Refund" ∨ recordType g = some "Usage"
         then s.other else jsAdd s.other (summaryAmount g))) ∧
    processSummary [exSummaryPeriod] =
      { usage := some 40, credit := some (mkRat 25 2), tax := some 0
      , refund := some 0, other := some 0, total := some (mkRat 105 2) } := by
  constructor
  · intro s g
    unfold classifyGroup
    by_cases h1 : recordType g = some "Credit"
    · simp [h1]
    · by_cases h2 : recordType g = some "Tax"
      · simp [h1, h2]
      · by_cases h3 : recordType g = some "Refund"
        · simp [h1, h2, h3]
        · by_cases h4 : recordType g = some "Usage"
          · simp [h1, h2, h3, h4]
          · simp [h1, h2, h3, h4]
  · decide

/-- Claim C2, counterexample: a non-numeric raw amount string (`"abc"`)
does not parse to `0`; both the normalizer's `Number` coercion and the
classifier's `parseFloat` yield `NaN` on it. -/
theorem claim2_counterexample :
    (getMetric (some exBadMetrics) "UnblendedCost").amount ≠ some 0 ∧
    (getMetric (some exBadMetrics) "UnblendedCost").amount = none ∧
    summaryAmount exBadGroup ≠ some 0 ∧
    summaryAmount exBadGroup = none := by decide

/-- Claim C2, amended: amount parsing yields `0` when the raw amount field
(or its metric object) is absent, and yields `NaN` — not an exception and
not `0` — when the field holds a non-numeric string; the unit defaults to
"USD" when absent, so a group missing the `UsageQuantity` field normalizes
to the metric `{amount: 0, unit: "USD"}`. -/
theorem claim2_amended_amount_parsing :
    (∀ (m : Option RawMetrics) (key : String),
      m.bind (fun mm => mapGet mm key) = none →
      getMetric m key = { amount := some 0, unit := "USD" }) ∧
    (∀ (m : Option RawMetrics) (key : String) (o : RawMetric),
      m.bind (fun mm => mapGet mm key) = some o → o.Amount = none →
      (getMetric m key).amount = some 0) ∧
    (∀ (m : Option RawMetrics) (key : String) (o : RawMetric),
      m.bind (fun mm => mapGet mm key) = some o → o.Amount = some "" →
      (getMetric m key).amount = some 0) ∧
    (∀ (m : Option RawMetrics) (key : String) (o : RawMetric) (s : String),
      m.bind (fun mm => mapGet mm key) = some o → o.Amount = some s →
      jsNumber s = none → (getMetric m key).amount = none) ∧
    (∀ (m : Option RawMetrics) (key : String) (o : RawMetric),
      m.bind (fun mm => mapGet mm key) = some o → o.Unit = none →
      (getMetric m key).unit = "USD") ∧
    (∀ g : RawGroup, rawUnblendedAmount g = none → summaryAmount g = some 0) ∧
    (∀ g : RawGroup, rawUnblendedAmount g = some "" → summaryAmount g = some 0) ∧
    (∀ (g : RawGroup) (s : String), rawUnblendedAmount g = some s → s ≠ "" →
      jsParseFloat s = none → summaryAmount g = none) ∧
    (toMetricSet (some exNoUsageMetrics)).usage = { amount := some 0, unit := "USD" } := by
  refine ⟨?_, ?_, ?_, ?_, ?_, ?_, ?_, ?_, by decide⟩
  · intro m key h
    simp [getMetric, h]
  · intro m key o h ha
    simp [getMetric, h, ha]
  · intro m key o h ha
    -- Number("") = 0
    simp [getMetric, h, ha]
    decide
  · intro m key o s h ha hn
    simp [getMetric, h, ha, hn]
  · intro m key o h hu
    simp [getMetric, h, hu]
  · intro g h
    have : orZeroStr (rawUnblendedAmount g) = "0" := by rw [h]; rfl
    unfold summaryAmount
    rw [this]
    decide
  · intro g h
    -- "" is falsy: ("" || "0") = "0", and parseFloat("0") = 0
    have : orZeroStr (rawUnblendedAmount g) = "0" := by rw [h]; rfl
    unfold summaryAmount
    rw [this]
    decide
  · intro g s h hs hn
    unfold summaryAmount
    rw [h]
    simpa [orZeroStr, hs] using hn

/-- Claim C2, witness: the amended theorem applied at an absent metric
object, at an empty-string amount, and at groups with an absent and an
empty raw unblended amount. -/
theorem claim2_witness :
    getMetric none "UsageQuantity" = { amount := some 0, unit := "USD" } ∧
    (getMetric (some [("UsageQuantity", ⟨some "", none⟩)]) "UsageQuantity").amount =
      some 0 ∧
    summaryAmount ⟨none, none⟩ = some 0 ∧
    summaryAmount ⟨some ["Usage"], some [("UnblendedCost", ⟨some "", none⟩)]⟩ =
      some 0 := by
  exact ⟨claim2_amended_amount_parsing.1 none "UsageQuantity" rfl,
    claim2_amended_amount_parsing.2.2.1
      (some [("UsageQuantity", ⟨some "", none⟩)]) "UsageQuantity" ⟨some "", none⟩
      rfl rfl,
    claim2_amended_amount_parsing.2.2.2.2.2.1 ⟨none, none⟩ rfl,
    claim2_amended_amount_parsing.2.2.2.2.2.2.1
      ⟨some ["Usage"], some [("UnblendedCost", ⟨some "", none⟩)]⟩ rfl⟩

/-- Claim C3: a `cacheSet` immediately followed by `cacheGet` of the same
key at any time within the 60-second TTL returns the identical payload;
`cacheGet` at any time strictly after the entry's `expiresAt` reports a
miss and removes the entry; an entry is never returned after
`now > expiresAt`. -/
theorem claim3_cache_roundtrip :
    (∀ (α : Type) (c : Cache α) (k : String) (p : α) (t0 t : Int),
      t ≤ t0 + CACHE_TTL_MS →
      cacheGet (cacheSet c k p t0) k t = (some p, cacheSet c k p t0)) ∧
    (∀ (α : Type) (c : Cache α) (k : String) (e : CacheEntry α) (t : Int),
      NodupKeys c → mapGet c k = some e → e.expiresAt < t →
      cacheGet c k t = (none, mapDelete c k) ∧
      mapGet (cacheGet c k t).2 k = none) ∧
    (∀ (α : Type) (c : Cache α) (k : String) (t : Int) (v : α) (c' : Cache α),
      cacheGet c k t = (some v, c') →
      ∃ e, mapGet c k = some e ∧ v = e.value ∧ ¬ e.expiresAt < t) := by
  refine ⟨?_, ?_, ?_⟩
  · intro α c k p t0 t ht
    have hn : ¬ t > t0 + CACHE_TTL_MS := not_lt.mpr ht
    simp only [cacheGet, cacheSet, mapGet_mapSet_self]
    simp [hn]
  · intro α c k e t hnd hget hexp
    have hgt : t > e.expiresAt := hexp
    refine ⟨?_, ?_⟩
    · simp [cacheGet, hget, hgt]
    · simp [cacheGet, hget, hgt, mapGet_mapDelete_self c k hnd]
  · intro α c k t v c' h
    cases hg : mapGet c k with
    | none => simp [cacheGet, hg] at h
    | some e =>
      by_cases hgt : t > e.expiresAt
      · simp [cacheGet, hg, hgt] at h
      · simp only [cacheGet, hg] at h
        rw [if_neg hgt] at h
        simp only [Prod.mk.injEq, Option.some.injEq] at h
        exact ⟨e, rfl, h.1.symm, hgt⟩

/-- Claim C3, witness: a fresh entry is returned at the TTL boundary, and an
expired entry is evicted on lookup. -/
theorem claim3_witness :
    cacheGet (cacheSet ([] : Cache Nat) "k" 7 0) "k" 60000 =
      (some 7, cacheSet ([] : Cache Nat) "k" 7 0) ∧
    cacheGet ([("k", ⟨5, 7⟩)] : Cache Nat) "k" 10 =
      (none, mapDelete ([("k", ⟨5, 7⟩)] : Cache Nat) "k") := by
  exact ⟨claim3_cache_roundtrip.1 Nat [] "k" 7 0 60000 (by decide),
    (claim3_cache_roundtrip.2.1 Nat [("k", ⟨5, 7⟩)] "k" ⟨5, 7⟩ 10
      (by simp [NodupKeys]) rfl (by decide)).1⟩

/-- Claim C5: on every upstream failure the credits endpoint answers 200
with the zero-valued payload, and it answers 200 on every outcome. -/
theorem claim5_credits_never_errors :
    (∀ e : JsError,
      runCredits (Except.error e) =
        ⟨200, { total_used := some 0, by_service := [] }⟩) ∧
    (∀ r : Except JsError RawResponse, (runCredits r).status = 200) := by
  refine ⟨fun e => rfl, fun r => ?_⟩
  cases r <;> rfl

/-- Claim C8: the query builder produces exactly the two request
descriptors described by the specification: the detail request carries the
given range, the requested granularity, all six metrics, a service
grouping iff `groupBy=SERVICE`, and the Credit/Refund exclusion filter;
the summary request carries the same range, MONTHLY granularity regardless
of the requested one, the single unblended-cost metric, the record-type
grouping, and no filter. -/
theorem claim8_query_builder (start end_ : String) (q : CostsQuery) :
    (buildDetailCmd start end_ q).TimePeriodStart = start ∧
    (buildDetailCmd start end_ q).TimePeriodEnd = end_ ∧
    (buildDetailCmd start end_ q).Granularity = granStr q.granularity ∧
    (buildDetailCmd start end_ q).Metrics =
      [ "UnblendedCost", "AmortizedCost", "BlendedCost"
      , "UsageQuantity", "NetUnblendedCost", "NetAmortizedCost" ] ∧
    ((buildDetailCmd start end_ q).GroupBy ≠ none ↔
      q.groupBy = GroupByOpt.SERVICE) ∧
    ((buildDetailCmd start end_ q).GroupBy =
      if q.groupBy = GroupByOpt.SERVICE then some [⟨"DIMENSION", "SERVICE"⟩]
      else none) ∧
    (buildDetailCmd start end_ q).Filter =
      some (.notDims ⟨"RECORD_TYPE", ["Credit", "Refund"]⟩) ∧
    (buildSummaryCmd start end_).TimePeriodStart = start ∧
    (buildSummaryCmd start end_).TimePeriodEnd = end_ ∧
    (buildSummaryCmd start end_).Granularity = "MONTHLY" ∧
    (buildSummaryCmd start end_).Metrics = ["UnblendedCost"] ∧
    (buildSummaryCmd start end_).GroupBy = some [⟨"DIMENSION", "RECORD_TYPE"⟩] ∧
    (buildSummaryCmd start end_).Filter = none := by
  refine ⟨rfl, rfl, rfl, rfl, ?_, rfl, rfl, rfl, rfl, rfl, rfl, rfl, rfl⟩
  cases hq : q.groupBy <;> simp [buildDetailCmd, hq]

/-- Claim C10: after classification the summary satisfies
`total = usage + credit + tax + refund + other` in exact arithmetic (with
`NaN` absorbing on both sides when an amount fails to parse). -/
theorem claim10_total_is_sum_of_buckets (periods : List RawPeriod) :
    (processSummary periods).total =
      jsAdd (processSummary periods).usage
        (jsAdd (processSummary periods).credit
          (jsAdd (processSummary periods).tax
            (jsAdd (processSummary periods).refund
              (processSummary periods).other))) := by
  unfold processSummary
  rw [foldl_nested_groups classifyGroup periods initSummary]
  exact foldl_classifyGroup_inv (allGroups periods) initSummary (by decide)

/-- Helper for C6: a cache miss plus a failing join produce the 500 error
response and leave the post-lookup cache untouched. -/
theorem runCosts_miss_error (now : Int) (cache : Cache CostsPayload)
    (q : CostsQuery) (dRes sRes : Except JsError RawResponse) (e : JsError)
    (h1 : (cacheGet cache (cacheKey (resolvedStart q now) (resolvedEnd q now)
        q.granularity q.groupBy) now).1 = none)
    (h2 : joinAll2 dRes sRes = Except.error e) :
    runCosts now cache q dRes sRes =
      (⟨500, .failure "Failed to fetch costs from AWS Cost Explorer" (errMsg e)⟩,
        (cacheGet cache (cacheKey (resolvedStart q now) (resolvedEnd q now)
          q.granularity q.groupBy) now).2) := by
  unfold runCosts
  simp only [h1, h2]

/-- Helper for C6: either upstream rejection makes the join fail with one
of the rejections' errors. -/
theorem joinAll2_error_of_either {α β : Type}
    (dRes : Except JsError α) (sRes : Except JsError β)
    (h : (∃ e, dRes = Except.error e) ∨ (∃ e, sRes = Except.error e)) :
    ∃ e, joinAll2 dRes sRes = Except.error e ∧
      (dRes = Except.error e ∨ sRes = Except.error e) := by
  cases dRes with
  | error e => cases sRes <;> exact ⟨e, rfl, Or.inl rfl⟩
  | ok a =>
    cases sRes with
    | error e => exact ⟨e, rfl, Or.inr rfl⟩
    | ok b =>
      rcases h with ⟨e, he⟩ | ⟨e, he⟩ <;> cases he

/-- Helper for C6: after a miss, the key is absent from the returned cache. -/
theorem cacheGet_miss_absent {α : Type} (c : Cache α) (k : String) (t : Int)
    (hnd : NodupKeys c) (h : (cacheGet c k t).1 = none) :
    mapGet (cacheGet c k t).2 k = none := by
  cases hg : mapGet c k with
  | none => simp [cacheGet, hg]
  | some e =>
    by_cases hgt : t > e.expiresAt
    · simp [cacheGet, hg, hgt, mapGet_mapDelete_self c k hnd]
    · simp [cacheGet, hg, hgt] at h

/-- Claim C6, counterexample: with an expired cache entry stored under the
request's key, a failing upstream call leaves the cache changed (the entry
was lazily evicted during the initial lookup), refuting "the cache state is
unchanged on error"; the response is still the 500 error. -/
theorem claim6_counterexample :
    (runCosts 10 exExpiredCache exQuery (Except.error exErr)
        (Except.ok ⟨none⟩)).2 ≠ exExpiredCache ∧
    (runCosts 10 exExpiredCache exQuery (Except.error exErr)
        (Except.ok ⟨none⟩)).1.status = 500 := by decide

/-- Claim C6, amended: if either of the two joined upstream calls fails,
the caller receives a 500 response carrying the upstream error's kind and
message, and no entry is written to the cache for the request's key: the
final cache is exactly the cache left by the initial lookup (which may have
lazily evicted an expired entry under that key), and the key is absent from
it. -/
theorem claim6_costs_error_path (now : Int) (cache : Cache CostsPayload)
    (q : CostsQuery) (dRes sRes : Except JsError RawResponse)
    (hnd : NodupKeys cache)
    (hmiss : (cacheGet cache (cacheKey (resolvedStart q now) (resolvedEnd q now)
        q.granularity q.groupBy) now).1 = none)
    (herr : (∃ e, dRes = Except.error e) ∨ (∃ e, sRes = Except.error e)) :
    ∃ e, (dRes = Except.error e ∨ sRes = Except.error e) ∧
      runCosts now cache q dRes sRes =
        (⟨500, .failure "Failed to fetch costs from AWS Cost Explorer" (errMsg e)⟩,
          (cacheGet cache (cacheKey (resolvedStart q now) (resolvedEnd q now)
            q.granularity q.groupBy) now).2) ∧
      mapGet (runCosts now cache q dRes sRes).2
        (cacheKey (resolvedStart q now) (resolvedEnd q now)
          q.granularity q.groupBy) = none := by
  obtain ⟨e, hjoin, hor⟩ := joinAll2_error_of_either dRes sRes herr
  have hrun := runCosts_miss_error now cache q dRes sRes e hmiss hjoin
  refine ⟨e, hor, hrun, ?_⟩
  rw [hrun]
  exact cacheGet_miss_absent cache _ now hnd hmiss

/-- Claim C6, witness: the amended theorem applied to a concrete failing
detail call on an empty cache. -/
theorem claim6_witness :
    ∃ e, ((Except.error exErr : Except JsError RawResponse) = Except.error e ∨
        (Except.ok ⟨none⟩ : Except JsError RawResponse) = Except.error e) ∧
      runCosts 0 ([] : Cache CostsPayload) exQuery (Except.error exErr) (Except.ok ⟨none⟩) =
        (⟨500, .failure "Failed to fetch costs from AWS Cost Explorer" (errMsg e)⟩,
          (cacheGet ([] : Cache CostsPayload)
            (cacheKey (resolvedStart exQuery 0) (resolvedEnd exQuery 0)
              exQuery.granularity exQuery.groupBy) 0).2) ∧
      mapGet (runCosts 0 ([] : Cache CostsPayload) exQuery
          (Except.error exErr) (Except.ok ⟨none⟩)).2
        (cacheKey (resolvedStart exQuery 0) (resolvedEnd exQuery 0)
          exQuery.granularity exQuery.groupBy) = none :=
  claim6_costs_error_path 0 [] exQuery (Except.error exErr) (Except.ok ⟨none⟩)
    (by simp [NodupKeys]) rfl (Or.inl ⟨exErr, rfl⟩)

/-- Claim C9: two resolved cost queries that differ in their `groupBy`
value always derive different cache keys. -/
theorem claim9_cache_key_groupBy (s1 e1 s2 e2 : String) (g1 g2 : Granularity)
    (gb1 gb2 : GroupByOpt) (h : gb1 ≠ gb2) :
    cacheKey s1 e1 g1 gb1 ≠ cacheKey s2 e2 g2 gb2 := by
  intro heq
  have hd := congrArg (fun x : String => x.data.reverse) heq
  clear heq
  cases gb1 <;> cases gb2
  · exact h rfl
  · simp [cacheKey, gbStr, String.data_append, List.append_assoc,
      List.reverse_append] at hd
  · simp [cacheKey, gbStr, String.data_append, List.append_assoc,
      List.reverse_append] at hd
  · exact h rfl

/-- Claim C9, witness: two concrete queries differing only in `groupBy`. -/
theorem claim9_witness :
    cacheKey "2024-01-01" "2024-01-03" .DAILY .SERVICE ≠
      cacheKey "2024-01-01" "2024-01-03" .DAILY .NONE :=
  claim9_cache_key_groupBy "2024-01-01" "2024-01-03" "2024-01-01" "2024-01-03"
    .DAILY .DAILY .SERVICE .NONE (by decide)

/-- Helper for C7: the rendering helpers only ever emit decimal digits. -/
theorem digitChar_mod_isDigit (n : Nat) : (Nat.digitChar (n % 10)).isDigit = true := by
  have h : n % 10 < 10 := Nat.mod_lt _ (by norm_num)
  have hb : ∀ m, m < 10 → (Nat.digitChar m).isDigit = true := by decide
  exact hb _ h

/-- Helper for C7: every rendered date has the shape `YYYY-MM-DD`. -/
theorem isoDate_formatted (t : Int) : isoFormatted (isoDate t) = true := by
  unfold isoDate isoFormatted pad4 pad2
  simp only [List.cons_append, List.nil_append]
  simp [digitChar_mod_isDigit]

/-- Claim C7: when `end` is omitted it defaults to today's date (the UTC
calendar date of the current clock reading) and when `start` is omitted it
defaults to 30 days before today (the clock shifted by exactly 30 days'
worth of milliseconds, which shifts the epoch-day count by exactly 30),
each formatted as a `YYYY-MM-DD` string. -/
theorem claim7_date_defaults (q : CostsQuery) (now : Int) :
    (q.end? = none → resolvedEnd q now = isoDate now) ∧
    (q.start? = none →
      resolvedStart q now = isoDate (now - 30 * 24 * 60 * 60 * 1000)) ∧
    (∀ t : Int, isoFormatted (isoDate t) = true) ∧
    (∀ t : Int, (t - 30 * 24 * 60 * 60 * 1000) / msPerDay = t / msPerDay - 30) := by
  refine ⟨?_, ?_, isoDate_formatted, ?_⟩
  · intro h
    simp [resolvedEnd, h]
  · intro h
    simp [resolvedStart, h]
  · intro t
    unfold msPerDay
    omega

/-- Claim C7, witness: a query omitting both dates at the epoch clock. -/
theorem claim7_witness :
    resolvedEnd ⟨none, none, .DAILY, .SERVICE⟩ 0 = isoDate 0 ∧
    resolvedStart ⟨none, none, .DAILY, .SERVICE⟩ 0 =
      isoDate (0 - 30 * 24 * 60 * 60 * 1000) ∧
    isoFormatted (isoDate 0) = true :=
  ⟨(claim7_date_defaults ⟨none, none, .DAILY, .SERVICE⟩ 0).1 rfl,
    (claim7_date_defaults ⟨none, none, .DAILY, .SERVICE⟩ 0).2.1 rfl,
    (claim7_date_defaults ⟨none, none, .DAILY, .SERVICE⟩ 0).2.2.1 0⟩

/-- Helper for C4: the running total component of the credits fold ignores
the service map. -/
theorem foldl_creditsStep_fst (gs : List RawGroup)
    (p : JSNum × List (String × JSNum)) :
    (gs.foldl creditsStep p).1 =
      gs.foldl (fun a g => jsAdd a (creditAmount g)) p.1 := by
  induction gs generalizing p with
  | nil => rfl
  | cons g t ih =>
    simp only [List.foldl_cons]
    exact ih (creditsStep p g)

/-- Helper for C4: with numeric amounts the running total is the exact sum. -/
theorem foldl_jsAdd_numeric (gs : List RawGroup) (q : ℚ)
    (hg : ∀ g ∈ gs, (creditAmount g).isSome) :
    gs.foldl (fun a g => jsAdd a (creditAmount g)) (some q) =
      some (q + grandTotal gs) := by
  induction gs generalizing q with
  | nil => simp [grandTotal]
  | cons g t ih =>
    obtain ⟨a, ha⟩ := Option.isSome_iff_exists.mp (hg g (List.mem_cons_self g t))
    have ht : ∀ g' ∈ t, (creditAmount g').isSome :=
      fun g' hmem => hg g' (List.mem_cons_of_mem _ hmem)
    simp only [List.foldl_cons, ha, jsAdd_some]
    rw [ih (q + a) ht]
    simp [grandTotal, ha, add_assoc]

/-- Helper for C4: the per-service total of a leading group with the same
service. -/
theorem svcTotal_cons_eq (s : String) (g : RawGroup) (t : List RawGroup)
    (h : serviceName g = s) :
    svcTotal s (g :: t) = (creditAmount g).getD 0 + svcTotal s t := by
  simp [svcTotal, List.filter_cons, h]

/-- Helper for C4: a leading group of another service does not contribute. -/
theorem svcTotal_cons_ne (s : String) (g : RawGroup) (t : List RawGroup)
    (h : ¬ serviceName g = s) :
    svcTotal s (g :: t) = svcTotal s t := by
  simp [svcTotal, List.filter_cons, h]

/-- Helper for C4: the credits fold keeps the service-map keys distinct. -/
theorem foldl_creditsStep_nodup (gs : List RawGroup)
    (p : JSNum × List (String × JSNum)) (h : NodupKeys p.2) :
    NodupKeys (gs.foldl creditsStep p).2 := by
  induction gs generalizing p with
  | nil => exact h
  | cons g t ih =>
    simp only [List.foldl_cons]
    exact ih (creditsStep p g) (nodupKeys_mapSet _ _ _ h)

/-- Helper for C4: the final lookup of a service in the accumulated map,
relative to a numeric starting map. -/
theorem foldl_creditsStep_lookup (gs : List RawGroup)
    (p : JSNum × List (String × JSNum))
    (hg : ∀ g ∈ gs, (creditAmount g).isSome)
    (hm : ∀ k v, mapGet p.2 k = some v → ∃ q : ℚ, v = some q) (s : String) :
    mapGet (gs.foldl creditsStep p).2 s =
      match mapGet p.2 s with
      | some v => some (some (v.getD 0 + svcTotal s gs))
      | none =>
        if s ∈ gs.map serviceName then some (some (svcTotal s gs)) else none := by
  induction gs generalizing p with
  | nil =>
    cases hps : mapGet p.2 s with
    | none => simpa [svcTotal] using hps
    | some v =>
      obtain ⟨q, rfl⟩ := hm s v hps
      simpa [svcTotal] using hps
  | cons g t ih =>
    obtain ⟨a, ha⟩ := Option.isSome_iff_exists.mp (hg g (List.mem_cons_self g t))
    have ht : ∀ g' ∈ t, (creditAmount g').isSome :=
      fun g' hmem => hg g' (List.mem_cons_of_mem _ hmem)
    have hstep : (creditsStep p g).2 =
        mapSet p.2 (serviceName g)
          (jsAdd (orZeroNum (mapGet p.2 (serviceName g))) (creditAmount g)) := rfl
    have hm' : ∀ k v, mapGet (creditsStep p g).2 k = some v → ∃ q : ℚ, v = some q := by
      intro k v hk
      rw [hstep] at hk
      by_cases hks : k = serviceName g
      · rw [hks, mapGet_mapSet_self] at hk
        cases hps : mapGet p.2 (serviceName g) with
        | none =>
          rw [hps, ha] at hk
          exact ⟨0 + a, by simpa [orZeroNum, jsAdd_some] using hk.symm⟩
        | some v0 =>
          obtain ⟨q0, hq0⟩ := hm (serviceName g) v0 hps
          subst hq0
          rw [hps, ha] at hk
          exact ⟨q0 + a, by simpa [orZeroNum, jsAdd_some] using hk.symm⟩
      · rw [mapGet_mapSet_other _ _ _ _ hks] at hk
        exact hm k v hk
    simp only [List.foldl_cons]
    rw [ih (creditsStep p g) ht hm']
    by_cases hss : s = serviceName g
    · rw [hstep, hss, mapGet_mapSet_self]
      cases hps : mapGet p.2 (serviceName g) with
      | none =>
        rw [ha, svcTotal_cons_eq (serviceName g) g t rfl]
        simp [orZeroNum, jsAdd_some, ha]
      | some v0 =>
        obtain ⟨q0, hq0⟩ := hm (serviceName g) v0 hps
        subst hq0
        rw [ha, svcTotal_cons_eq (serviceName g) g t rfl]
        simp only [orZeroNum, jsAdd_some, Option.getD_some, ha]
        rw [add_assoc]
    · have hsvc : ¬ serviceName g = s := fun hq => hss hq.symm
      rw [hstep, mapGet_mapSet_other _ _ _ _ hss]
      cases hps : mapGet p.2 s with
      | none =>
        rw [svcTotal_cons_ne s g t hsvc]
        simp only [List.map_cons, List.mem_cons]
        simp [hss]
      | some v0 =>
        rw [svcTotal_cons_ne s g t hsvc]

/-- Helper for C4: insertion keeps the permutation of the input. -/
theorem sortInsert_perm (x : SvcEntry) (l : List SvcEntry) :
    List.Perm (sortInsert x l) (x :: l) := by
  induction l with
  | nil => exact List.Perm.refl _
  | cons y ys ih =>
    cases hgb : geAmtB x y with
    | true => simp [sortInsert, hgb]
    | false =>
      simp only [sortInsert, hgb, Bool.false_eq_true, if_false]
      exact (ih.cons y).trans (List.Perm.swap x y ys)

/-- Helper for C4: the modelled sort permutes its input. -/
theorem sortByAmountDesc_perm (l : List SvcEntry) :
    List.Perm (sortByAmountDesc l) l := by
  induction l with
  | nil => exact List.Perm.refl _
  | cons x t ih =>
    unfold sortByAmountDesc
    simp only [List.foldr_cons]
    exact (sortInsert_perm x _).trans (ih.cons x)

/-- Helper for C4: the before-or-equal relation is total on numeric
entries. -/
theorem entryGe_total (x y : SvcEntry) (hx : x.amount.isSome)
    (hy : y.amount.isSome) (h : ¬ geAmtB x y = true) : entryGe y x := by
  obtain ⟨a, ha⟩ := Option.isSome_iff_exists.mp hx
  obtain ⟨b, hb⟩ := Option.isSome_iff_exists.mp hy
  unfold entryGe geAmtB at *
  simp only [ha, hb] at h
  simp only [ha, hb]
  rw [ratLeB_iff] at h
  rw [ratLeB_iff]
  exact le_of_not_le h

/-- Helper for C4: the before-or-equal relation is transitive on numeric
entries. -/
theorem entryGe_trans (x y z : SvcEntry) (hx : x.amount.isSome)
    (hy : y.amount.isSome) (hz : z.amount.isSome)
    (h1 : entryGe x y) (h2 : entryGe y z) : entryGe x z := by
  obtain ⟨a, ha⟩ := Option.isSome_iff_exists.mp hx
  obtain ⟨b, hb⟩ := Option.isSome_iff_exists.mp hy
  obtain ⟨c, hc⟩ := Option.isSome_iff_exists.mp hz
  unfold entryGe geAmtB at *
  simp only [ha, hb] at h1
  simp only [hb, hc] at h2
  simp only [ha, hc]
  rw [ratLeB_iff] at h1 h2 ⊢
  exact le_trans h2 h1

/-- Helper for C4: inserting into a sorted list of numeric entries keeps it
sorted. -/
theorem sortInsert_pairwise (x : SvcEntry) (l : List SvcEntry)
    (hx : x.amount.isSome) (hl : ∀ e ∈ l, e.amount.isSome)
    (hs : List.Pairwise entryGe l) :
    List.Pairwise entryGe (sortInsert x l) := by
  induction l with
  | nil => simp [sortInsert]
  | cons y ys ih =>
    obtain ⟨hy, hys⟩ := List.pairwise_cons.mp hs
    have hysome : y.amount.isSome := hl y (List.mem_cons_self y ys)
    have hyssome : ∀ e ∈ ys, e.amount.isSome :=
      fun e he => hl e (List.mem_cons_of_mem _ he)
    cases hgb : geAmtB x y with
    | true =>
      simp only [sortInsert, hgb, if_true]
      refine List.Pairwise.cons ?_ hs
      intro z hz
      rcases List.mem_cons.mp hz with rfl | hz'
      · exact hgb
      · exact entryGe_trans x y z hx hysome (hyssome z hz') hgb (hy z hz')
    | false =>
      simp only [sortInsert, hgb, Bool.false_eq_true, if_false]
      refine List.Pairwise.cons ?_ (ih hyssome hys)
      intro z hz
      rcases List.mem_cons.mp ((sortInsert_perm x ys).mem_iff.mp hz) with rfl | hz'
      · exact entryGe_total z y hx hysome (by simp [hgb])
      · exact hy z hz'

/-- Helper for C4: the sorted output of numeric entries is pairwise
descending. -/
theorem sortByAmountDesc_pairwise (l : List SvcEntry)
    (h : ∀ e ∈ l, e.amount.isSome) :
    List.Pairwise entryGe (sortByAmountDesc l) := by
  induction l with
  | nil => simp [sortByAmountDesc]
  | cons x t ih =>
    unfold sortByAmountDesc
    simp only [List.foldr_cons]
    have hall : ∀ e ∈ List.foldr sortInsert [] t, e.amount.isSome := by
      intro e he
      have : e ∈ t := (sortByAmountDesc_perm t).mem_iff.mp he
      exact h e (List.mem_cons_of_mem _ this)
    exact sortInsert_pairwise x _ (h x (List.mem_cons_self x t)) hall
      (ih fun e he => h e (List.mem_cons_of_mem _ he))

/-- Claim C4, counterexample: a credits response with a non-numeric amount
("x", parsed as `NaN`) between two numeric ones yields `by_service` that is
not sorted descending by amount: the entry with amount 1 precedes the entry
with amount 5. -/
theorem claim4_counterexample :
    (creditsAggregate [exNaNCreditsPeriod]).by_service =
      [⟨"A", some 1⟩, ⟨"B", none⟩, ⟨"C", some 5⟩] ∧
    ¬ List.Pairwise entryGe (creditsAggregate [exNaNCreditsPeriod]).by_service := by
  have heq : (creditsAggregate [exNaNCreditsPeriod]).by_service =
      [⟨"A", some 1⟩, ⟨"B", none⟩, ⟨"C", some 5⟩] := by decide
  refine ⟨heq, fun h => ?_⟩
  rw [heq] at h
  have h2 := (List.pairwise_cons.mp h).1 ⟨"C", some 5⟩ (by simp)
  have h3 : geAmtB ⟨"A", some 1⟩ ⟨"C", some 5⟩ = false := by decide
  unfold entryGe at h2
  rw [h3] at h2
  cases h2

/-- Claim C4, amended: for every 12-month credits response all of whose
group amounts parse as numbers, the credits aggregator sums amounts per
service (service name defaulting to "Unknown" when the group key is
absent), reports each per-service amount and the grand `total_used` as
absolute values, and returns `by_service` sorted descending by amount with
exactly one entry per service; in particular two groups
`{service "EC2", amount "-5.00"}` and `{service "EC2", amount "-3.00"}`
produce exactly one entry `{service: "EC2", amount: 8.00}`.  (A non-numeric
amount yields a `NaN` entry and can leave `by_service` unsorted.) -/
theorem claim4_credits_aggregator (periods : List RawPeriod)
    (hnum : AllNumeric periods) :
    (creditsAggregate periods).total_used =
      some |grandTotal (allGroups periods)| ∧
    (∀ e ∈ (creditsAggregate periods).by_service,
      e.amount = some |svcTotal e.service (allGroups periods)| ∧
      e.service ∈ (allGroups periods).map serviceName) ∧
    ((creditsAggregate periods).by_service.map SvcEntry.service).Nodup ∧
    List.Pairwise entryGe (creditsAggregate periods).by_service ∧
    (∀ g : RawGroup, g.Keys.bind List.head? = none → serviceName g = "Unknown") ∧
    creditsAggregate [exCreditsPeriod] =
      { total_used := some 8, by_service := [⟨"EC2", some 8⟩] } := by
  unfold AllNumeric at hnum
  have hflat : creditsFold periods =
      (allGroups periods).foldl creditsStep
        ((some 0 : JSNum), ([] : List (String × JSNum))) := by
    unfold creditsFold
    exact foldl_nested_groups creditsStep periods _
  have hm0 : ∀ k v, mapGet ([] : List (String × JSNum)) k = some v →
      ∃ q : ℚ, v = some q := by
    intro k v h
    simp [mapGet] at h
  have hnodup : NodupKeys ((creditsFold periods).2) := by
    rw [hflat]
    exact foldl_creditsStep_nodup (allGroups periods) _ (by simp [NodupKeys])
  have hstored : ∀ pr ∈ (creditsFold periods).2,
      pr.2 = some (svcTotal pr.1 (allGroups periods)) ∧
      pr.1 ∈ (allGroups periods).map serviceName := by
    intro pr hpr
    have hget : mapGet (creditsFold periods).2 pr.1 = some pr.2 :=
      mapGet_of_mem _ pr.1 pr.2 hnodup (by simpa using hpr)
    have hl := foldl_creditsStep_lookup (allGroups periods) (some 0, []) hnum hm0 pr.1
    rw [← hflat] at hl
    rw [hget] at hl
    simp only [mapGet] at hl
    by_cases hmem : pr.1 ∈ (allGroups periods).map serviceName
    · rw [if_pos hmem] at hl
      exact ⟨by simpa using hl, hmem⟩
    · rw [if_neg hmem] at hl
      cases hl
  have hbs : (creditsAggregate periods).by_service =
      sortByAmountDesc ((creditsFold periods).2.map
        (fun p => ⟨p.1, jsAbs p.2⟩)) := rfl
  have hperm := sortByAmountDesc_perm
    ((creditsFold periods).2.map (fun p => ⟨p.1, jsAbs p.2⟩))
  have htot1 : (creditsFold periods).1 =
      some (0 + grandTotal (allGroups periods)) := by
    rw [hflat, foldl_creditsStep_fst]
    exact foldl_jsAdd_numeric (allGroups periods) 0 hnum
  have htot : (creditsAggregate periods).total_used =
      some |grandTotal (allGroups periods)| := by
    have hproj : (creditsAggregate periods).total_used =
        jsAbs (creditsFold periods).1 := rfl
    rw [hproj, htot1]
    simp [jsAbs, ratAbs_eq]
  have hentries : ∀ e ∈ (creditsAggregate periods).by_service,
      e.amount = some |svcTotal e.service (allGroups periods)| ∧
      e.service ∈ (allGroups periods).map serviceName := by
    intro e he
    rw [hbs] at he
    obtain ⟨pr, hpr, rfl⟩ := List.mem_map.mp (hperm.mem_iff.mp he)
    obtain ⟨hval, hmem⟩ := hstored pr hpr
    refine ⟨?_, hmem⟩
    show jsAbs pr.2 = _
    rw [hval]
    simp [jsAbs, ratAbs_eq]
  have hnodupsvc :
      ((creditsAggregate periods).by_service.map SvcEntry.service).Nodup := by
    rw [hbs]
    rw [List.Perm.nodup_iff (hperm.map SvcEntry.service)]
    simp only [List.map_map]
    have hcomp : (SvcEntry.service ∘ fun p : String × JSNum =>
        (⟨p.1, jsAbs p.2⟩ : SvcEntry)) = Prod.fst := rfl
    rw [hcomp]
    exact hnodup
  have hsorted : List.Pairwise entryGe (creditsAggregate periods).by_service := by
    rw [hbs]
    apply sortByAmountDesc_pairwise
    intro e he
    obtain ⟨pr, hpr, rfl⟩ := List.mem_map.mp he
    obtain ⟨hval, _⟩ := hstored pr hpr
    show (jsAbs pr.2).isSome = true
    rw [hval]
    simp [jsAbs]
  refine ⟨htot, hentries, hnodupsvc, hsorted, ?_, by decide⟩
  intro g h
  simp [serviceName, h]

/-- Claim C4, witness: the amended theorem applied to the two-group EC2
example, whose amounts all parse. -/
theorem claim4_witness :
    (creditsAggregate [exCreditsPeriod]).total_used =
      some |grandTotal (allGroups [exCreditsPeriod])| ∧
    creditsAggregate [exCreditsPeriod] =
      { total_used := some 8, by_service := [⟨"EC2", some 8⟩] } := by
  have h := claim4_credits_aggregator [exCreditsPeriod]
    (by unfold AllNumeric allGroups; decide)
  exact ⟨h.1, h.2.2.2.2.2⟩

end AwsBillDash
